import Mathlib

/-!
Shallow embedding of the novel crawler (`novel_info.py`, `epub_generator.py`).

Python strings are modelled as Lean `String` values; character-level
operations (`str.split`, `str.strip`, substring tests, `str.join`) are
modelled over the underlying `List Char`, which matches Python's view of a
string as a sequence of code points.  Network and HTML-parsing effects are
passed in as explicit oracle arguments (`Except`-valued fetch results and
already-extracted selector fields), so every function is total and
executable.
-/

namespace NovelCrawler

/-- Model of Python `str.split(sep)` for a one-character separator, on the
character list.  `''.split(sep) == ['']` and separators at the ends produce
empty fields, exactly as in Python. -/
def splitCharOn (sep : Char) : List Char → List (List Char)
  | [] => [[]]
  | c :: cs =>
    if c = sep then [] :: splitCharOn sep cs
    else
      match splitCharOn sep cs with
      | [] => [[c]]
      | g :: gs => (c :: g) :: gs

/-- Model of Python `sep.join(parts)` on character lists. -/
def joinSep (sep : List Char) : List (List Char) → List Char
  | [] => []
  | [g] => g
  | g :: h :: t => g ++ sep ++ joinSep sep (h :: t)

/-- Model of Python `str.strip()` with no argument: drop whitespace from both
ends of the character list. -/
def stripChars (l : List Char) : List Char :=
  (((l.dropWhile Char.isWhitespace).reverse).dropWhile Char.isWhitespace).reverse

/-- `str.strip()` lifted to `String`. -/
def pyStrip (s : String) : String :=
  ⟨stripChars s.data⟩

/-- Model of Python's `sub in s` substring test on character lists. -/
def containsSub (pat : List Char) : List Char → Bool
  | [] => pat.isPrefixOf []
  | c :: cs => pat.isPrefixOf (c :: cs) || containsSub pat cs

/-- The fixed boilerplate marker list `ad_keywords` from
`NovelInfo._clean_content`. -/
def ad_keywords : List String :=
  ["本章完", "手機用戶請訪問", "czbooks.net", "////", "----", "＊＊＊"]

/-- `any(keyword in line for keyword in ad_keywords)`. -/
def hasAdKeyword (line : List Char) : Bool :=
  ad_keywords.any (fun k => containsSub k.data line)

/-- The line pipeline of `NovelInfo._clean_content`, mirroring the source:
split on newline, strip each line, drop empty lines, then drop lines that
contain a boilerplate marker. -/
def cleanLines (cs : List Char) : List (List Char) :=
  (((splitCharOn '\n' cs).map stripChars).filter
      (fun line => !line.isEmpty)).filter
    (fun line => !hasAdKeyword line)

/-- `NovelInfo._clean_content`: clean up chapter content and rejoin the
surviving lines with a single newline. -/
def _clean_content (content : String) : String :=
  ⟨joinSep ['\n'] (cleanLines content.data)⟩

/-- Single-pass restatement of the cleaning pipeline, following the spec's
wording (trim, drop empty, drop boilerplate) as one combined filter.  Used to
state the specification claims against `cleanLines`. -/
def cleanLinesSpec (cs : List Char) : List (List Char) :=
  ((splitCharOn '\n' cs).map stripChars).filter
    (fun line => !line.isEmpty && !hasAdKeyword line)

/-! ### Fetcher: `NovelInfo._request_with_retry` -/

/-- Failure value raised out of `_request_with_retry`: either the last
underlying `requests.RequestException` re-raised verbatim, or the generic
fallback raised when the loop body never ran. -/
inductive RetryError where
  | last : String → RetryError
  | generic : String → RetryError
deriving DecidableEq, Repr

/-- The `for attempt in range(max_retries)` loop body of
`_request_with_retry`.  `attempt : Nat → Except String α` is the outcome of
the physical HTTP attempt with that index (success payload or the
`RequestException` message); `rem` is the number of loop iterations still to
run and `i` the current attempt index.  The returned `Nat` counts the
physical attempts actually made.  Falling off the loop reaches the trailing
`raise RequestException("All retry attempts failed")`. -/
def retryLoop (attempt : Nat → Except String α) (max_retries : Nat) :
    Nat → Nat → Except RetryError α × Nat
  | 0, _ => (.error (.generic "All retry attempts failed"), 0)
  | rem + 1, i =>
    match attempt i with
    | .ok r => (.ok r, 1)
    | .error e =>
      if i = max_retries - 1 then (.error (.last e), 1)
      else
        let p := retryLoop attempt max_retries rem (i + 1)
        (p.1, p.2 + 1)

/-- `NovelInfo._request_with_retry`, with the network modelled by the
per-attempt oracle.  Returns the outcome together with the number of
attempts made. -/
def _request_with_retry (attempt : Nat → Except String α)
    (max_retries : Nat := 3) : Except RetryError α × Nat :=
  retryLoop attempt max_retries max_retries 0

/-! ### Catalog retrieval: `NovelInfo.get_info` -/

/-- One `<a>` element of the `.chapter-list li a` selection: its text and its
`href` attribute (`chapter.get('href', '')`). -/
structure RawChapter where
  text : String
  href : String
deriving DecidableEq, Repr

/-- The selector results `get_info` reads off the catalog page: the text of
`.novel-detail .info .title`, of `.novel-detail .info .author a`, the
chapter anchors, and the text of the serialization-status cell (`none` when
the selector matches nothing). -/
structure CatalogPage where
  title_elem : Option String
  author_elem : Option String
  chapters : List RawChapter
  status_elem : Option String
deriving DecidableEq, Repr

/-- `ChapterInfo` TypedDict: {title, url}. -/
structure ChapterInfo where
  title : String
  url : String
deriving DecidableEq, Repr

/-- `NovelData` TypedDict.  The Python success dict simply lacks the
`'error'` key; here `error = none` models its absence. -/
structure NovelData where
  title : String
  author : String
  status : String
  first_chapter : Option String
  last_chapter : Option String
  total_chapters : Nat
  chapters : List ChapterInfo
  error : Option String
deriving DecidableEq, Repr

/-- The error-branch dictionary returned by `get_info`'s `except` handler. -/
def errorNovelData (msg : String) : NovelData :=
  { title := ""
    author := ""
    status := ""
    first_chapter := none
    last_chapter := none
    total_chapters := 0
    chapters := []
    error := some msg }

/-- Chapter URL construction inside `get_info`: strip a leading
`//czbooks.net` (via `str.replace`, which replaces every occurrence) and
prepend the base URL. -/
def buildChapterUrl (href : String) : String :=
  let href := if href.startsWith "//czbooks.net"
    then href.replace "//czbooks.net" "" else href
  "https://czbooks.net" ++ href

/-- The `chapter_list` built inside `get_info`: one `ChapterInfo` per
anchor, with stripped title and constructed URL. -/
def catalogChapterList (chs : List RawChapter) : List ChapterInfo :=
  chs.map (fun c => { title := pyStrip c.text, url := buildChapterUrl c.href })

/-- `NovelInfo.get_info`, with fetch+parse modelled by the
`Except`-valued catalog-page oracle (an `.error` is a fetch failure whose
message is `str(e)`).  The internal `ValueError`s land in the same `except`
handler as fetch failures, producing `errorNovelData`. -/
def get_info (fetchResult : Except String CatalogPage) : NovelData :=
  match fetchResult with
  | .error e => errorNovelData ("獲取資訊失敗: " ++ e)
  | .ok page =>
    match page.title_elem with
    | none => errorNovelData "獲取資訊失敗: 無法找書名"
    | some titleText =>
      match page.author_elem with
      | none => errorNovelData "獲取資訊失敗: 無法找到作者資訊"
      | some authorText =>
        if (catalogChapterList page.chapters).isEmpty then
          errorNovelData "獲取資訊失敗: 無法獲章節列表"
        else
          { title := ((pyStrip titleText).replace "《" "").replace "》" ""
            author := pyStrip authorText
            status := match page.status_elem with
              | none => "未知"
              | some st => pyStrip st
            first_chapter := (catalogChapterList page.chapters).head?.map
              (·.title)
            last_chapter := (catalogChapterList page.chapters).getLast?.map
              (·.title)
            total_chapters := (catalogChapterList page.chapters).length
            chapters := catalogChapterList page.chapters
            error := none }

/-! ### Chapter retrieval: `NovelInfo.get_chapter_content` -/

/-- The selector results `get_chapter_content` reads off a chapter page:
the text of `.name` and of `.content` (`none` when absent). -/
structure ChapterPage where
  name_elem : Option String
  content_elem : Option String
deriving DecidableEq, Repr

/-- `ChapterContent` TypedDict: {title, content, error}. -/
structure ChapterContent where
  title : String
  content : String
  error : Option String
deriving DecidableEq, Repr

/-- Title post-processing in `get_chapter_content`: strip, then if the
title contains both `《` and `》` keep only the part after the last `》`
(`title.split('》')[-1].strip()`). -/
def processChapterTitle (raw : String) : String :=
  let title := pyStrip raw
  if title.data.contains '《' && title.data.contains '》' then
    pyStrip ⟨(splitCharOn '》' title.data).getLastD []⟩
  else title

/-- `NovelInfo.get_chapter_content`, with fetch+parse modelled by the
chapter-page oracle.  A fetch failure or a missing selector lands in the
`except` handler, which returns a `ChapterContent` whose `error` field is
set and whose `title`/`content` are empty. -/
def get_chapter_content (fetchResult : Except String ChapterPage) :
    ChapterContent :=
  match fetchResult with
  | .error e =>
    { title := "", content := "", error := some ("取章節內容失敗: " ++ e) }
  | .ok page =>
    match page.name_elem with
    | none =>
      { title := "", content := ""
        error := some "取章節內容失敗: 無法找到章節標題" }
    | some nameText =>
      match page.content_elem with
      | none =>
        { title := "", content := ""
          error := some "取章節內容失敗: 無法找到章節內容" }
      | some contentText =>
        { title := processChapterTitle nameText
          content := _clean_content contentText
          error := none }

/-! ### Parallel downloader: `NovelInfo.download_chapters_parallel` -/

/-- The `{'title': ..., 'content': ...}` dict appended to `results`. -/
structure DownloadedChapter where
  title : String
  content : String
deriving DecidableEq, Repr

/-- The inner helper `download_single`: download one chapter and keep it
only when its `error` field is unset.  `env` maps each chapter ref to the
fetch+parse outcome of its URL. -/
def download_single (env : ChapterInfo → Except String ChapterPage)
    (chapter : ChapterInfo) : Option DownloadedChapter :=
  if (get_chapter_content (env chapter)).error.isNone then
    some { title := (get_chapter_content (env chapter)).title
           content := (get_chapter_content (env chapter)).content }
  else none

/-- The `futures` list: one submitted unit of work per chapter, in
submission order.  Collecting `future.result()` iterates this list in
submission order, not completion order, so the pure value of each future is
`download_single` of its chapter. -/
def futuresOf (env : ChapterInfo → Except String ChapterPage)
    (chapters : List ChapterInfo) : List (Option DownloadedChapter) :=
  chapters.map (download_single env)

/-- `NovelInfo.download_chapters_parallel`: collect each future's result in
submission order and keep the non-`None` ones.  `max_workers` only sizes the
thread pool and does not influence the collected value. -/
def download_chapters_parallel (env : ChapterInfo → Except String ChapterPage)
    (chapters : List ChapterInfo) (max_workers : Nat := 3) :
    List DownloadedChapter :=
  (futuresOf env chapters).filterMap id

/-- Spec-side downloader: tag every chapter with its submission index,
collect against the submission index, then filter out failures (the
"collect results against their submission index, not completion order, then
filter" wording of the spec).  Used to compare against
`download_chapters_parallel`. -/
def downloadIndexedFrom (env : ChapterInfo → Except String ChapterPage) :
    Nat → List ChapterInfo → List (Nat × DownloadedChapter)
  | _, [] => []
  | i, c :: cs =>
    match download_single env c with
    | some d => (i, d) :: downloadIndexedFrom env (i + 1) cs
    | none => downloadIndexedFrom env (i + 1) cs

/-! ### Filename derivation (from `main`) -/

/-- The filename computation of `main` in `novel_info.py`, as a function of
the catalog fields it reads (`title`, `status`, `last_chapter`,
`total_chapters`) and the selected slice `[start_idx, end_idx)` (0-based
start, exclusive end, as in the source). -/
def deriveFilename (title status last_chapter : String)
    (start_idx end_idx total_chapters : Nat) : String :=
  if start_idx = 0 ∧ end_idx = total_chapters then
    if status ≠ "已完結" then
      title ++ "_第1章到第" ++ toString total_chapters ++ "章_最新" ++
        last_chapter ++ ".epub"
    else
      title ++ "_全本.epub"
  else
    title ++ "_第" ++ toString (start_idx + 1) ++ "章到第" ++
      toString end_idx ++ "章.epub"

/-! ### Document assembly: `EpubGenerator` -/

/-- `EpubGenerator._convert_text_to_html`: split on newline, keep lines that
are non-blank after stripping, wrap each kept line verbatim in `<p>...</p>`,
join with newlines.  No escaping is applied to the line text. -/
def _convert_text_to_html (text : String) : String :=
  ⟨joinSep ("\n").data
    (((splitCharOn '\n' text.data).filter
        (fun p => !(stripChars p).isEmpty)).map
      (fun p => ("<p>").data ++ p ++ ("</p>").data))⟩

/-- Template text of the f-string in `_format_chapter_content` before the
first `{title}` interpolation. -/
def tplHead : String := "\n        <html>\n            <head>\n                <title>"

/-- Template text between `{title}` in `<title>` and `{title}` in `<h1>`. -/
def tplMid1 : String := "</title>\n                <link rel=\"stylesheet\" href=\"style.css\" type=\"text/css\"/>\n            </head>\n            <body>\n                <h1>"

/-- Template text between `{title}` in `<h1>` and the converted body. -/
def tplMid2 : String := "</h1>\n                "

/-- Template text after the converted body. -/
def tplTail : String := "\n            </body>\n        </html>\n        "

/-- `EpubGenerator._format_chapter_content`: the f-string template, with the
title and the converted body interpolated verbatim. -/
def _format_chapter_content (title content : String) : String :=
  tplHead ++ title ++ tplMid1 ++ title ++ tplMid2 ++
    _convert_text_to_html content ++ tplTail

/-! ## Helper lemmas about the string model -/

theorem data_append (a b : String) : (a ++ b).data = a.data ++ b.data := rfl

theorem splitCharOn_ne_nil (sep : Char) (l : List Char) :
    splitCharOn sep l ≠ [] := by
  cases l with
  | nil => simp [splitCharOn]
  | cons c cs =>
    rw [splitCharOn]
    by_cases hc : c = sep
    · rw [if_pos hc]; simp
    · rw [if_neg hc]
      rcases h : splitCharOn sep cs with _ | ⟨g, gs⟩ <;> simp

theorem not_mem_splitCharOn {sep : Char} {l : List Char} :
    ∀ g ∈ splitCharOn sep l, sep ∉ g := by
  induction l with
  | nil =>
    intro g hg
    simp only [splitCharOn, List.mem_singleton] at hg
    subst hg; simp
  | cons c cs ih =>
    intro g hg
    rw [splitCharOn] at hg
    by_cases hc : c = sep
    · rw [if_pos hc] at hg
      rcases List.mem_cons.mp hg with h | h
      · subst h; simp
      · exact ih g h
    · rw [if_neg hc] at hg
      rcases h : splitCharOn sep cs with _ | ⟨g2, gs⟩
      · rw [h] at hg
        simp only [List.mem_singleton] at hg
        subst hg
        intro hm
        rcases List.mem_singleton.mp hm with h2
        exact hc h2.symm
      · rw [h] at hg
        rcases List.mem_cons.mp hg with h2 | h2
        · subst h2
          intro hm
          rcases List.mem_cons.mp hm with h3 | h3
          · exact hc h3.symm
          · exact ih g2 (h ▸ List.mem_cons_self _ _) h3
        · exact ih g (h ▸ List.mem_cons_of_mem _ h2)

theorem splitCharOn_eq_single {sep : Char} :
    ∀ {g : List Char}, sep ∉ g → splitCharOn sep g = [g] := by
  intro g
  induction g with
  | nil => intro _; rfl
  | cons c cs ih =>
    intro h
    have hc : c ≠ sep := fun hcs => h (hcs ▸ List.mem_cons_self _ _)
    have hcs : sep ∉ cs := fun hm => h (List.mem_cons_of_mem _ hm)
    rw [splitCharOn, if_neg hc, ih hcs]

theorem splitCharOn_append_cons {sep : Char} :
    ∀ {g : List Char} (t : List Char), sep ∉ g →
      splitCharOn sep (g ++ sep :: t) = g :: splitCharOn sep t := by
  intro g
  induction g with
  | nil =>
    intro t _
    show splitCharOn sep (sep :: t) = [] :: splitCharOn sep t
    rw [splitCharOn, if_pos rfl]
  | cons c cs ih =>
    intro t h
    have hc : c ≠ sep := fun hcs => h (hcs ▸ List.mem_cons_self _ _)
    have hcs : sep ∉ cs := fun hm => h (List.mem_cons_of_mem _ hm)
    show splitCharOn sep (c :: (cs ++ sep :: t)) = (c :: cs) :: splitCharOn sep t
    rw [splitCharOn, if_neg hc, ih t hcs]

theorem splitCharOn_joinSep {sep : Char} :
    ∀ {L : List (List Char)}, L ≠ [] → (∀ g ∈ L, sep ∉ g) →
      splitCharOn sep (joinSep [sep] L) = L
  | [], h, _ => absurd rfl h
  | [g], _, hg => by
    show splitCharOn sep g = [g]
    exact splitCharOn_eq_single (hg g (List.mem_singleton_self g))
  | g :: h2 :: t, _, hg => by
    show splitCharOn sep (g ++ [sep] ++ joinSep [sep] (h2 :: t)) = g :: h2 :: t
    rw [List.append_assoc, List.singleton_append,
      splitCharOn_append_cons _ (hg g (List.mem_cons_self _ _)),
      splitCharOn_joinSep (L := h2 :: t) (by simp)
        (fun x hx => hg x (List.mem_cons_of_mem _ hx))]

theorem infix_joinSep {sep : List Char} :
    ∀ {L : List (List Char)} {x : List Char}, x ∈ L → x <:+: joinSep sep L
  | [], x, hx => absurd hx (List.not_mem_nil x)
  | [g], x, hx => by
    rw [List.mem_singleton] at hx
    subst hx
    exact List.infix_refl _
  | g :: h2 :: t, x, hx => by
    rcases List.mem_cons.mp hx with h | h
    · subst h
      exact ⟨[], sep ++ joinSep sep (h2 :: t), by simp [joinSep]⟩
    · obtain ⟨s, t2, hst⟩ := @infix_joinSep sep (h2 :: t) x h
      exact ⟨(g ++ sep) ++ s, t2, by
        show g ++ sep ++ s ++ x ++ t2 = joinSep sep (g :: h2 :: t)
        rw [joinSep, ← hst]
        simp [List.append_assoc]⟩

theorem dropWhile_eq_self_of_head {p : α → Bool} :
    ∀ {l : List α}, (∀ a, l.head? = some a → p a = false) → l.dropWhile p = l
  | [], _ => rfl
  | a :: l, h => by
    rw [List.dropWhile_cons_of_neg]
    simp [h a rfl]

theorem head?_dropWhile_false {p : α → Bool} {l : List α} {a : α}
    (h : (l.dropWhile p).head? = some a) : p a = false := by
  have hm := List.head?_dropWhile_not p l
  rw [h] at hm
  exact hm

theorem stripChars_idem (l : List Char) :
    stripChars (stripChars l) = stripChars l := by
  have hBlast : ∀ a : Char,
      ((l.dropWhile Char.isWhitespace).reverse.dropWhile
        Char.isWhitespace).getLast? = some a →
      (l.dropWhile Char.isWhitespace).head? = some a := by
    intro a ha
    obtain ⟨s, hs⟩ := List.dropWhile_suffix
      (l := (l.dropWhile Char.isWhitespace).reverse) (p := Char.isWhitespace)
    have h2 : (l.dropWhile Char.isWhitespace).reverse.getLast? = some a := by
      rw [← hs, List.getLast?_append, ha]
      rfl
    rwa [List.getLast?_reverse] at h2
  have step1 : (((l.dropWhile Char.isWhitespace).reverse.dropWhile
        Char.isWhitespace).reverse).dropWhile Char.isWhitespace =
      ((l.dropWhile Char.isWhitespace).reverse.dropWhile
        Char.isWhitespace).reverse := by
    apply dropWhile_eq_self_of_head
    intro a ha
    rw [List.head?_reverse] at ha
    exact head?_dropWhile_false (hBlast a ha)
  have step2 : ((l.dropWhile Char.isWhitespace).reverse.dropWhile
        Char.isWhitespace).dropWhile Char.isWhitespace =
      (l.dropWhile Char.isWhitespace).reverse.dropWhile Char.isWhitespace := by
    apply dropWhile_eq_self_of_head
    intro a ha
    exact head?_dropWhile_false ha
  unfold stripChars
  rw [step1, List.reverse_reverse, step2]

theorem mem_stripChars {a : Char} {l : List Char} (h : a ∈ stripChars l) :
    a ∈ l := by
  unfold stripChars at h
  rw [List.mem_reverse] at h
  have h2 := (List.dropWhile_suffix _).subset h
  rw [List.mem_reverse] at h2
  exact (List.dropWhile_suffix _).subset h2

theorem mem_cleanLines {cs x : List Char} (hx : x ∈ cleanLines cs) :
    stripChars x = x ∧ '\n' ∉ x ∧ x.isEmpty = false ∧
      hasAdKeyword x = false := by
  unfold cleanLines at hx
  rw [List.mem_filter] at hx
  obtain ⟨hx1, had⟩ := hx
  rw [List.mem_filter] at hx1
  obtain ⟨hx2, hemp⟩ := hx1
  rw [List.mem_map] at hx2
  obtain ⟨g, hg, rfl⟩ := hx2
  refine ⟨stripChars_idem g, ?_, by simpa using hemp, by simpa using had⟩
  intro hmem
  exact not_mem_splitCharOn g hg (mem_stripChars hmem)

theorem cleanLines_joinSep_fixed :
    ∀ (L : List (List Char)),
      (∀ x ∈ L, stripChars x = x ∧ '\n' ∉ x ∧ x.isEmpty = false ∧
        hasAdKeyword x = false) →
      cleanLines (joinSep ['\n'] L) = L := by
  intro L hfacts
  rcases L with _ | ⟨g, L2⟩
  · decide
  · have h1 : splitCharOn '\n' (joinSep ['\n'] (g :: L2)) = g :: L2 :=
      splitCharOn_joinSep (by simp) (fun x hx => (hfacts x hx).2.1)
    have h2 : (g :: L2).map stripChars = g :: L2 :=
      (List.map_congr_left (fun x hx => (hfacts x hx).1)).trans
        (List.map_id _)
    unfold cleanLines
    rw [h1, h2,
      List.filter_eq_self.mpr (fun a ha => by
        rw [(hfacts a (List.mem_of_mem_filter ha)).2.2.2]; rfl),
      List.filter_eq_self.mpr (fun a ha => by
        rw [(hfacts a ha).2.2.1]; rfl)]

theorem cleanLines_joinSep_cleanLines (cs : List Char) :
    cleanLines (joinSep ['\n'] (cleanLines cs)) = cleanLines cs :=
  cleanLines_joinSep_fixed (cleanLines cs) (fun _ hx => mem_cleanLines hx)

/-- Claim C5: `_clean_content` splits its input into lines, trims each line,
discards empty lines, discards lines containing a configured boilerplate
marker, and rejoins the survivors with a single newline; when no line
survives the result is the empty string.  (Totality and determinism are
inherent: it is a plain function.) -/
theorem clean_content_spec (s : String) :
    (_clean_content s).data = joinSep ['\n'] (cleanLinesSpec s.data) ∧
    (cleanLinesSpec s.data = [] → _clean_content s = "") := by
  have h : cleanLines s.data = cleanLinesSpec s.data := by
    unfold cleanLines cleanLinesSpec
    rw [List.filter_filter]
    exact List.filter_congr (fun a _ => by
      cases hE : a.isEmpty <;> cases hA : hasAdKeyword a <;> simp [hE, hA])
  constructor
  · show joinSep ['\n'] (cleanLines s.data) = _
    rw [h]
  · intro h0
    show (⟨joinSep ['\n'] (cleanLines s.data)⟩ : String) = ""
    rw [h, h0]
    rfl

/-- Witness for C5 at a concrete input: a single boilerplate line cleans to
the empty string. -/
theorem clean_content_spec_witness : _clean_content "本章完" = "" :=
  (clean_content_spec "本章完").2 (by decide)

/-- Claim C6: the content normalizer `_clean_content` is idempotent. -/
theorem clean_content_idempotent (s : String) :
    _clean_content (_clean_content s) = _clean_content s :=
  congrArg String.mk
    (congrArg (joinSep ['\n']) (cleanLines_joinSep_cleanLines s.data))

/-! ## Parallel downloader lemmas -/

theorem downloadIndexedFrom_map_snd
    (env : ChapterInfo → Except String ChapterPage) :
    ∀ (i : Nat) (chapters : List ChapterInfo),
      (downloadIndexedFrom env i chapters).map Prod.snd =
        (futuresOf env chapters).filterMap id := by
  intro i chapters
  induction chapters generalizing i with
  | nil => rfl
  | cons c cs ih =>
    rw [downloadIndexedFrom]
    cases h : download_single env c with
    | some d => simp [futuresOf, h, ih, List.filterMap_cons]
    | none => simp [futuresOf, h, ih, List.filterMap_cons]

theorem downloadIndexedFrom_le
    (env : ChapterInfo → Except String ChapterPage) :
    ∀ (i : Nat) (chapters : List ChapterInfo) (x : Nat × DownloadedChapter),
      x ∈ downloadIndexedFrom env i chapters → i ≤ x.1 := by
  intro i chapters
  induction chapters generalizing i with
  | nil => intro x hx; exact absurd hx (List.not_mem_nil x)
  | cons c cs ih =>
    intro x hx
    rw [downloadIndexedFrom] at hx
    cases h : download_single env c with
    | some d =>
      rw [h] at hx
      rcases List.mem_cons.mp hx with h2 | h2
      · subst h2; exact Nat.le_refl i
      · exact Nat.le_of_succ_le (ih (i + 1) x h2)
    | none =>
      rw [h] at hx
      exact Nat.le_of_succ_le (ih (i + 1) x hx)

theorem downloadIndexedFrom_pairwise
    (env : ChapterInfo → Except String ChapterPage) :
    ∀ (i : Nat) (chapters : List ChapterInfo),
      (downloadIndexedFrom env i chapters).Pairwise
        (fun a b => a.1 < b.1) := by
  intro i chapters
  induction chapters generalizing i with
  | nil => exact List.Pairwise.nil
  | cons c cs ih =>
    rw [downloadIndexedFrom]
    cases h : download_single env c with
    | some d =>
      refine List.Pairwise.cons ?_ (ih (i + 1))
      intro y hy
      exact Nat.lt_of_succ_le (downloadIndexedFrom_le env (i + 1) cs y hy)
    | none => exact ih (i + 1)

/-- Claim C2: for every chapter list and concurrency bound, the batch
returned by `download_chapters_parallel` equals the index-tagged collection
(`downloadIndexedFrom`, which gathers results against submission indices)
projected to its payloads, and the collected submission indices are strictly
increasing — so the successful entries keep the original submission order
and no index occurs twice. -/
theorem download_order_preserved
    (env : ChapterInfo → Except String ChapterPage)
    (chapters : List ChapterInfo) (max_workers : Nat) :
    (downloadIndexedFrom env 0 chapters).map Prod.snd =
      download_chapters_parallel env chapters max_workers ∧
    ((downloadIndexedFrom env 0 chapters).map Prod.fst).Pairwise (· < ·) := by
  constructor
  · exact downloadIndexedFrom_map_snd env 0 chapters
  · rw [List.pairwise_map]
    exact downloadIndexedFrom_pairwise env 0 chapters

/-- Claim C3: a failing unit of work (fetch failure or missing
title/content element) yields a `ChapterContent` with `error` set and empty
fields; `download_chapters_parallel` always returns exactly the successful
entries (a failing unit removes only itself), and when every unit fails the
batch is empty. -/
theorem download_error_containment
    (env : ChapterInfo → Except String ChapterPage)
    (chapters : List ChapterInfo) (max_workers : Nat) :
    (download_chapters_parallel env chapters max_workers =
      (chapters.filter
          (fun c => (get_chapter_content (env c)).error.isNone)).map
        (fun c => { title := (get_chapter_content (env c)).title
                    content := (get_chapter_content (env c)).content })) ∧
    ((∀ c ∈ chapters, (get_chapter_content (env c)).error.isSome = true) →
      download_chapters_parallel env chapters max_workers = []) ∧
    (∀ fr : Except String ChapterPage,
      ((∃ e, fr = .error e) ∨
        ∃ p, fr = .ok p ∧ (p.name_elem = none ∨ p.content_elem = none)) →
      (get_chapter_content fr).error.isSome = true ∧
        (get_chapter_content fr).title = "" ∧
        (get_chapter_content fr).content = "") := by
  have main : ∀ chs : List ChapterInfo,
      (chs.map (download_single env)).filterMap id =
        (chs.filter
            (fun c => (get_chapter_content (env c)).error.isNone)).map
          (fun c => { title := (get_chapter_content (env c)).title
                      content := (get_chapter_content (env c)).content }) := by
    intro chs
    induction chs with
    | nil => rfl
    | cons c cs ih =>
      rw [List.map_cons, List.filterMap_cons, List.filter_cons]
      cases h : (get_chapter_content (env c)).error.isNone with
      | true => simp [download_single, h, ih]
      | false => simp [download_single, h, ih]
  refine ⟨main chapters, ?_, ?_⟩
  · intro hall
    have h2 : chapters.filter
        (fun c => (get_chapter_content (env c)).error.isNone) = [] := by
      rw [List.filter_eq_nil_iff]
      intro a ha
      have hs := hall a ha
      cases h : (get_chapter_content (env a)).error with
      | none => rw [h] at hs; exact absurd hs (by simp)
      | some e2 => simp [h]
    show (chapters.map (download_single env)).filterMap id = []
    rw [main chapters, h2]
    rfl
  · intro fr hfr
    rcases hfr with ⟨e, rfl⟩ | ⟨p, rfl, hp⟩
    · exact ⟨rfl, rfl, rfl⟩
    · rcases p with ⟨ne, ce⟩
      rcases hp with h | h
      · subst h
        exact ⟨rfl, rfl, rfl⟩
      · subst h
        cases ne with
        | none => exact ⟨rfl, rfl, rfl⟩
        | some nm => exact ⟨rfl, rfl, rfl⟩

/-- Witness for C3: with a fetch oracle that always fails, the single
chapter is degraded to an error record and the batch is empty. -/
theorem download_error_containment_witness :
    download_chapters_parallel (fun _ => Except.error "boom")
        [{ title := "c1", url := "u1" }] 3 = [] ∧
      (get_chapter_content (Except.error "boom")).error.isSome = true := by
  constructor
  · exact (download_error_containment (fun _ => Except.error "boom")
      [{ title := "c1", url := "u1" }] 3).2.1 (fun c _ => by decide)
  · exact ((download_error_containment (fun _ => Except.error "boom")
      [{ title := "c1", url := "u1" }] 3).2.2 (Except.error "boom")
      (Or.inl ⟨"boom", rfl⟩)).1

/-- Claim C8: on the empty chapter list the downloader submits no unit of
work (the futures list is empty) and returns the empty batch. -/
theorem download_empty_no_pool
    (env : ChapterInfo → Except String ChapterPage) (max_workers : Nat) :
    futuresOf env [] = [] ∧
      download_chapters_parallel env [] max_workers = [] :=
  ⟨rfl, rfl⟩

/-! ## Fetcher retry lemmas -/

theorem retryLoop_attempts_le (attempt : Nat → Except String α)
    (max_retries : Nat) :
    ∀ (rem i : Nat), (retryLoop attempt max_retries rem i).2 ≤ rem := by
  intro rem
  induction rem with
  | zero => intro i; exact Nat.le_refl 0
  | succ r ih =>
    intro i
    rw [retryLoop]
    rcases hA : attempt i with e | v
    · show (if i = max_retries - 1 then
            ((Except.error (RetryError.last e) : Except RetryError α), 1)
          else ((retryLoop attempt max_retries r (i + 1)).1,
            (retryLoop attempt max_retries r (i + 1)).2 + 1)).2 ≤ r + 1
      by_cases hi : i = max_retries - 1
      · rw [if_pos hi]
        exact Nat.succ_le_succ (Nat.zero_le r)
      · rw [if_neg hi]
        exact Nat.succ_le_succ (ih (i + 1))
    · exact Nat.succ_le_succ (Nat.zero_le r)

theorem retryLoop_all_fail (attempt : Nat → Except String α)
    (max_retries : Nat) (e : String)
    (he : attempt (max_retries - 1) = .error e) :
    ∀ (rem i : Nat), i + rem = max_retries →
      (∀ j, i ≤ j → j < max_retries → ∃ e2, attempt j = .error e2) →
      0 < rem →
      (retryLoop attempt max_retries rem i).1 = .error (.last e) := by
  intro rem
  induction rem with
  | zero => intro i _ _ h0; exact absurd h0 (by simp)
  | succ r ih =>
    intro i hsum hall _
    obtain ⟨e2, he2⟩ := hall i (Nat.le_refl i) (by omega)
    rw [retryLoop, he2]
    show (if i = max_retries - 1 then
          ((Except.error (RetryError.last e2) : Except RetryError α), 1)
        else ((retryLoop attempt max_retries r (i + 1)).1,
          (retryLoop attempt max_retries r (i + 1)).2 + 1)).1 =
        Except.error (RetryError.last e)
    by_cases hi : i = max_retries - 1
    · have he2e : e2 = e := by
        rw [hi] at he2
        rw [he2] at he
        exact (Except.error.injEq _ _).mp he
      rw [if_pos hi, he2e]
    · rw [if_neg hi]
      exact ih (i + 1) (by omega)
        (fun j h1 h2 => hall j (by omega) h2) (by omega)

/-- Claim C4: `_request_with_retry` makes at most `max_retries` attempts;
when every attempt fails it fails with the last observed underlying error;
and with a cap of 0 (no attempt ever runs) it fails with the generic
"All retry attempts failed" error. -/
theorem request_with_retry_spec (attempt : Nat → Except String α)
    (max_retries : Nat) :
    (_request_with_retry attempt max_retries).2 ≤ max_retries ∧
    (max_retries = 0 →
      (_request_with_retry attempt max_retries).1 =
        .error (.generic "All retry attempts failed")) ∧
    (∀ e, 0 < max_retries →
      (∀ j, j < max_retries → ∃ e2, attempt j = .error e2) →
      attempt (max_retries - 1) = .error e →
      (_request_with_retry attempt max_retries).1 = .error (.last e)) := by
  refine ⟨retryLoop_attempts_le attempt max_retries max_retries 0, ?_, ?_⟩
  · intro h
    subst h
    rfl
  · intro e hpos hall he
    exact retryLoop_all_fail attempt max_retries e he max_retries 0
      (by omega) (fun j _ h2 => hall j h2) hpos

/-- Witness for C4 at concrete inputs: with an always-failing oracle, cap 2
fails with the last underlying error within 2 attempts, and cap 0 fails
with the generic error. -/
theorem request_with_retry_spec_witness :
    (_request_with_retry (fun _ => (Except.error "boom" : Except String Nat))
        2).1 = .error (.last "boom") ∧
    (_request_with_retry (fun _ => (Except.error "boom" : Except String Nat))
        0).1 = .error (.generic "All retry attempts failed") ∧
    (_request_with_retry (fun _ => (Except.error "boom" : Except String Nat))
        2).2 ≤ 2 := by
  refine ⟨?_, ?_, ?_⟩
  · exact (request_with_retry_spec _ 2).2.2 "boom" (by decide)
      (fun j _ => ⟨"boom", rfl⟩) rfl
  · exact (request_with_retry_spec _ 0).2.1 rfl
  · exact (request_with_retry_spec _ 2).1

/-! ## Catalog retrieval -/

/-- Claim C9: `get_info` is total (always returns a result-shaped value),
and any result that carries an error has all remaining fields empty or
zero-valued. -/
theorem get_info_error_shape (fetchResult : Except String CatalogPage) :
    (get_info fetchResult).error = none ∨
    ((get_info fetchResult).error.isSome = true ∧
      (get_info fetchResult).title = "" ∧
      (get_info fetchResult).author = "" ∧
      (get_info fetchResult).status = "" ∧
      (get_info fetchResult).first_chapter = none ∧
      (get_info fetchResult).last_chapter = none ∧
      (get_info fetchResult).total_chapters = 0 ∧
      (get_info fetchResult).chapters = []) := by
  rcases fetchResult with e | page
  · right
    exact ⟨rfl, rfl, rfl, rfl, rfl, rfl, rfl, rfl⟩
  · rcases page with ⟨te, ae, chs, se⟩
    rcases te with _ | t
    · right
      exact ⟨rfl, rfl, rfl, rfl, rfl, rfl, rfl, rfl⟩
    rcases ae with _ | a
    · right
      exact ⟨rfl, rfl, rfl, rfl, rfl, rfl, rfl, rfl⟩
    by_cases h : (catalogChapterList chs).isEmpty
    · have hg : get_info (Except.ok ⟨some t, some a, chs, se⟩) =
          errorNovelData "獲取資訊失敗: 無法獲章節列表" := by
        show (if (catalogChapterList chs).isEmpty then
            errorNovelData "獲取資訊失敗: 無法獲章節列表" else _) = _
        rw [if_pos h]
      rw [hg]
      right
      exact ⟨rfl, rfl, rfl, rfl, rfl, rfl, rfl, rfl⟩
    · have hg : (get_info (Except.ok ⟨some t, some a, chs, se⟩)).error =
          none := by
        show (if (catalogChapterList chs).isEmpty then
            errorNovelData "獲取資訊失敗: 無法獲章節列表" else _).error = none
        rw [if_neg h]
      left
      exact hg

/-! ## Filename derivation -/

/-- Claim C1 fails on the code: two catalogs agreeing on title, status,
selected range and total count but differing in the last chapter's title
derive different filenames (the full-range, not-yet-complete branch embeds
the last chapter's title). -/
theorem filename_depends_on_last_chapter :
    deriveFilename "T" "連載中" "A" 0 5 5 ≠
      deriveFilename "T" "連載中" "B" 0 5 5 := by
  decide

/-- Claim C1 (amended): the derived filename is a function of (title,
status, start index, end index, total count, last chapter title), and the
last chapter's title is irrelevant whenever the status is "已完結" or the
selected range does not cover the whole catalog. -/
theorem filename_indep_of_last_outside_full_serial
    (title status l1 l2 : String) (start_idx end_idx total : Nat)
    (h : status = "已完結" ∨ ¬(start_idx = 0 ∧ end_idx = total)) :
    deriveFilename title status l1 start_idx end_idx total =
      deriveFilename title status l2 start_idx end_idx total := by
  rcases h with h | h
  · unfold deriveFilename
    split
    · rw [if_neg (not_not_intro h), if_neg (not_not_intro h)]
    · rfl
  · unfold deriveFilename
    rw [if_neg h, if_neg h]

/-- Witness for the amended C1 at a concrete input: with status "已完結"
the filename ignores the last chapter's title. -/
theorem filename_indep_witness :
    deriveFilename "T" "已完結" "A" 0 5 5 =
      deriveFilename "T" "已完結" "B" 0 5 5 :=
  filename_indep_of_last_outside_full_serial "T" "已完結" "A" "B" 0 5 5
    (Or.inl rfl)

/-- Claim C7: the three filename-derivation cases, stated over the 1-based
inclusive selection `[s, e]` of a catalog with `N` chapters (the source's
`start_idx` is `s - 1` and `end_idx` is `e`): full range and status not
"已完結" gives the "latest chapter" name, full range and status "已完結"
gives the "complete book" name, and a partial range gives the plain range
name. -/
theorem filename_derivation_cases (title status last : String) (s e N : Nat)
    (h1 : 1 ≤ s) (h2 : s ≤ e) (h3 : e ≤ N) :
    ((s = 1 ∧ e = N ∧ status ≠ "已完結") →
      deriveFilename title status last (s - 1) e N =
        title ++ "_第1章到第" ++ toString N ++ "章_最新" ++ last ++
          ".epub") ∧
    ((s = 1 ∧ e = N ∧ status = "已完結") →
      deriveFilename title status last (s - 1) e N =
        title ++ "_全本.epub") ∧
    (¬(s = 1 ∧ e = N) →
      deriveFilename title status last (s - 1) e N =
        title ++ "_第" ++ toString s ++ "章到第" ++ toString e ++
          "章.epub") := by
  refine ⟨?_, ?_, ?_⟩
  · rintro ⟨hs, he, hst⟩
    subst hs; subst he
    unfold deriveFilename
    rw [if_pos ⟨rfl, rfl⟩, if_pos hst]
  · rintro ⟨hs, he, hst⟩
    subst hs; subst he
    unfold deriveFilename
    rw [if_pos ⟨rfl, rfl⟩, if_neg (not_not_intro hst)]
  · intro h
    have hcond : ¬(s - 1 = 0 ∧ e = N) := by
      rintro ⟨hs0, heN⟩
      exact h ⟨by omega, heN⟩
    unfold deriveFilename
    rw [if_neg hcond]
    have hplus : s - 1 + 1 = s := by omega
    rw [hplus]

/-- Witness for C7 at the spec's own scenario: full range of a 10-chapter
catalog with a not-yet-complete status. -/
theorem filename_derivation_cases_witness :
    deriveFilename "測試小說" "連載中" "終章" 0 10 10 =
      "測試小說_第1章到第10章_最新終章.epub" := by
  have h := (filename_derivation_cases "測試小說" "連載中" "終章" 1 10 10
    (by decide) (by decide) (by decide)).1 ⟨rfl, rfl, by decide⟩
  exact h.trans (by decide)

/-! ## Document assembly -/

/-- Claim C10: the document assembler escapes nothing — the chapter title
and every non-blank line of the body are interpolated verbatim into the
XHTML produced by `_format_chapter_content` (each kept line wrapped in a
`<p>` element), so characters like `<` and `&` pass through unchanged. -/
theorem format_chapter_no_escaping (title content : String) :
    title.data <:+: (_format_chapter_content title content).data ∧
    (∀ p ∈ splitCharOn '\n' content.data, (!(stripChars p).isEmpty) = true →
      (("<p>").data ++ p ++ ("</p>").data) <:+:
        (_format_chapter_content title content).data) := by
  constructor
  · exact ⟨tplHead.data,
      (tplMid1 ++ title ++ tplMid2 ++ _convert_text_to_html content ++
        tplTail).data,
      by simp [_format_chapter_content, data_append, List.append_assoc]⟩
  · intro p hp hstrip
    have hmem : (("<p>").data ++ p ++ ("</p>").data) ∈
        ((splitCharOn '\n' content.data).filter
            (fun q => !(stripChars q).isEmpty)).map
          (fun q => ("<p>").data ++ q ++ ("</p>").data) :=
      List.mem_map_of_mem _ (List.mem_filter.mpr ⟨hp, hstrip⟩)
    have h1 := @infix_joinSep (("\n").data) _ _ hmem
    exact h1.trans ⟨(tplHead ++ title ++ tplMid1 ++ title ++ tplMid2).data,
      tplTail.data,
      by simp [_format_chapter_content, _convert_text_to_html, data_append,
        List.append_assoc]⟩

/-- Witness for C10: a body line containing `<` and `&` is embedded
verbatim, wrapped in a `<p>` element, in the generated document. -/
theorem format_chapter_no_escaping_witness :
    (("<p>").data ++ ("a<&b").data ++ ("</p>").data) <:+:
      (_format_chapter_content "T&" "a<&b").data :=
  (format_chapter_no_escaping "T&" "a<&b").2 ("a<&b").data (by decide)
    (by decide)

end NovelCrawler
